import Mathlib

/-!
# FastLoop Loop Execution Engine — formal model

A shallow embedding of the FastLoop runtime's core state operations,
translated from the Python source:

* `fastloop/state/state_redis.py` — `RedisStateManager` (loop records,
  event queues, event history, context key/value, index set);
* `fastloop/context.py` — `LoopContext.wait_for` and `LoopContext.delete`;
* `fastloop/fastloop.py` — the dispatcher route handler and `LoopMonitor.run`.

Modelling conventions:

* Redis lists are Lean `List`s with the head at the Redis list head, so
  `LPUSH` is `List.cons`, `RPOP` takes the last element, and
  `LRANGE 0 -1` returns the whole list head first.
* Unix timestamps (`int(datetime.now().timestamp())`) are `ℤ`; float
  quantities (`idle_timeout`, wait timeouts) are `ℚ`, exact for the
  magnitudes the program uses.
* `str(uuid.uuid4())` is nondeterministic, so each operation that may
  generate an id takes the generated string as an explicit `fresh`
  argument; likewise each clock read is an explicit argument.
* Events are serialized to JSON before being stored (`to_json` /
  `from_json` live in `fastloop/loop.py`, which is not part of the
  sources here). Modelled from the spec: the codec satisfies
  `LoopEvent.from_json(event.to_json()) == event` for every registered
  event schema, so stored strings are modelled as the events themselves.
-/

namespace FastLoop

/-- `LoopEventSender` enum (`fastloop/types.py`): direction of an event. -/
inductive LoopEventSender where
  | client
  | server
deriving DecidableEq, Repr

/-- `LoopStatus` enum (`fastloop/types.py`): lifecycle state of a loop. -/
inductive LoopStatus where
  | running
  | idle
  | paused
  | stopped
deriving DecidableEq, Repr

/-- Modelled from the spec: `LoopEvent` is defined in `fastloop/loop.py`,
which is absent from the sources; the spec gives its fields as `type`,
`loop_id` (nullable), `sender`, `nonce`, `created_at` plus per-type
payload fields, which we keep as one opaque string. -/
structure LoopEvent where
  type : String
  loop_id : Option String
  sender : LoopEventSender
  nonce : Option Nat
  created_at : ℤ
  payload : String
deriving DecidableEq, Repr

/-- Modelled from the spec: `LoopState` is defined in `fastloop/loop.py` /
`fastloop/state/state.py`, absent from the sources. The spec gives the
record fields `loop_id`, `loop_name`, `status`, `idle_timeout`,
`last_event_at`, and states that a freshly persisted record has
`status=RUNNING`; `RedisStateManager.get_or_create_loop` constructs it
without passing `status`, so `running` is the constructor default. -/
structure LoopState where
  loop_id : String
  loop_name : Option String
  status : LoopStatus
  idle_timeout : ℚ
  last_event_at : ℤ
deriving DecidableEq, Repr

/-- Identity of one direction-specific event queue: the formatted Redis key
`fastloop:events:{loop_id}:{event_type}:{server|client}`. -/
structure QueueKey where
  loop_id : String
  event_type : String
  sender : LoopEventSender
deriving DecidableEq, Repr

/-- Pointwise update of a function store at one key. -/
def updFun {α β : Type} [DecidableEq α] (f : α → β) (a : α) (b : β) : α → β :=
  fun x => if x = a then b else f x

/-- The Redis keyspace reachable from `RedisStateManager`, split by key
template (`RedisKeys` in `state_redis.py`):

* `index` — the set at `fastloop:index` (`SADD`/`SMEMBERS`/`SREM`);
* `states` — the JSON loop record at `fastloop:state:{loop_id}`;
* `queues` — the per-(loop, type, sender) event lists;
* `history` — the list at `fastloop:event_history:{loop_id}`;
* `contextKV` — the bytes at `fastloop:context:{loop_id}:{key}`;
* `published` — the log of pub/sub notifications published so far, one
  entry per `PUBLISH`, recording the loop_id channel. -/
structure RedisStore where
  index : List String
  states : String → Option LoopState
  queues : QueueKey → List LoopEvent
  history : String → List LoopEvent
  contextKV : String × String → Option String
  published : List String

/-- Python truthiness test `not loop_id` on an optional string:
`None` and the empty string are falsy. -/
def optFalsy : Option String → Bool
  | Option.none => true
  | some s => decide (s = "")

/-- Redis `SADD`: add a member to a set if not already present. -/
def sadd (idx : List String) (x : String) : List String :=
  if x ∈ idx then idx else idx ++ [x]

/-- `RedisStateManager.get_or_create_loop` (`state_redis.py` lines 37-61):
if `loop_id` is falsy, substitute `fresh` (= `str(uuid.uuid4())`); if a
record exists under the resulting id, return it with `created=False` and
leave the store unchanged; otherwise persist an initial record with the
passed name and idle timeout and `last_event_at=now`, `SADD` the id to the
index, and return it with `created=True`. -/
def getOrCreateLoop (s : RedisStore) (loop_name : Option String)
    (loop_id : Option String) (idle_timeout : ℚ) (fresh : String) (now : ℤ) :
    (LoopState × Bool) × RedisStore :=
  let lid := if optFalsy loop_id then fresh else loop_id.getD fresh
  match s.states lid with
  | some rec => ((rec, false), s)
  | Option.none =>
      let lp : LoopState :=
        { loop_id := lid
          loop_name := loop_name
          status := LoopStatus.running
          idle_timeout := idle_timeout
          last_event_at := now }
      ((lp, true),
        { s with states := updFun s.states lid (some lp)
                 index := sadd s.index lid })

/-- `RedisStateManager.update_loop` (`state_redis.py` lines 63-66):
full-record overwrite of the loop record key. -/
def updateLoop (s : RedisStore) (loop_id : String) (st : LoopState) : RedisStore :=
  { s with states := updFun s.states loop_id (some st) }

/-- The direction-specific queue key chosen by `push_event` / `pop_event`
(`state_redis.py` lines 129-138 and 177-186): the server template for
`SERVER`, the client template for `CLIENT`. The Python `else: raise
ValueError` branch is unreachable because the enum has no other member. -/
def queueKeyFor (loop_id : String) (event_type : String)
    (sender : LoopEventSender) : QueueKey :=
  match sender with
  | LoopEventSender.server => ⟨loop_id, event_type, LoopEventSender.server⟩
  | LoopEventSender.client => ⟨loop_id, event_type, LoopEventSender.client⟩

/-- First store command of `push_event` (`state_redis.py` line 140):
`LPUSH` the serialized event onto its direction-specific queue. -/
def pushQueueStep (s : RedisStore) (loop_id : String) (e : LoopEvent) : RedisStore :=
  let k := queueKeyFor loop_id e.type e.sender
  { s with queues := updFun s.queues k (e :: s.queues k) }

/-- Second store command of `push_event` (`state_redis.py` lines 141-143):
`LPUSH` the serialized event onto the per-loop history list. -/
def pushHistoryStep (s : RedisStore) (loop_id : String) (e : LoopEvent) : RedisStore :=
  { s with history := updFun s.history loop_id (e :: s.history loop_id) }

/-- Tail of `push_event` (`state_redis.py` lines 145-148):
`get_or_create_loop(loop_id=loop_id)` with default name `None` and default
idle timeout `60.0`, then overwrite `last_event_at` with a fresh clock
read and `update_loop`. `tCreate` is the clock read a creation would use,
`tTouch` the one at line 146. -/
def touchLoopStep (s : RedisStore) (loop_id : String) (fresh : String)
    (tCreate tTouch : ℤ) : RedisStore :=
  let r := getOrCreateLoop s Option.none (some loop_id) 60 fresh tCreate
  let loop := r.1.1
  updateLoop r.2 loop_id { loop with last_event_at := tTouch }

/-- `RedisStateManager.push_event` (`state_redis.py` lines 128-148): three
groups of store commands issued one after another, with no surrounding
`MULTI`/`EXEC` pipeline — queue `LPUSH`, history `LPUSH`, then the loop
record read-modify-write. No `PUBLISH` command is issued anywhere. -/
def pushEvent (s : RedisStore) (loop_id : String) (e : LoopEvent)
    (fresh : String) (tCreate tTouch : ℤ) : RedisStore :=
  touchLoopStep (pushHistoryStep (pushQueueStep s loop_id e) loop_id e)
    loop_id fresh tCreate tTouch

/-- `RedisStateManager.get_event_history` (`state_redis.py` lines 122-126):
`LRANGE 0 -1` over the history list, i.e. the whole list from the Redis
list head — the most recently `LPUSH`ed element — to the tail. -/
def getEventHistory (s : RedisStore) (loop_id : String) : List LoopEvent :=
  s.history loop_id

/-- `RedisStateManager.pop_event` (`state_redis.py` lines 171-192): `RPOP`
the matching direction queue — remove and return the element at the Redis
list tail, the oldest `LPUSH`ed one — or return `None` when empty. -/
def popEvent (s : RedisStore) (loop_id : String) (event_type : String)
    (sender : LoopEventSender) : Option LoopEvent × RedisStore :=
  let k := queueKeyFor loop_id event_type sender
  match (s.queues k).getLast? with
  | Option.none => (Option.none, s)
  | some e =>
      (some e, { s with queues := updFun s.queues k (s.queues k).dropLast })

/-- One call of `push_event` in a sequence: the event together with the
nondeterministic inputs of that call (generated uuid, two clock reads). -/
structure PushCall where
  ev : LoopEvent
  fresh : String
  tCreate : ℤ
  tTouch : ℤ

/-- A sequence of `push_event` calls against the same loop id, oldest
call first. -/
def pushSeq (s : RedisStore) (loop_id : String) (cs : List PushCall) : RedisStore :=
  cs.foldl (fun st c => pushEvent st loop_id c.ev c.fresh c.tCreate c.tTouch) s

/-- `n` successive `pop_event` calls on the same (loop, type, sender)
queue, returning the observations in call order. -/
def popMany (s : RedisStore) (loop_id : String) (event_type : String)
    (sender : LoopEventSender) : Nat → List (Option LoopEvent) × RedisStore
  | 0 => ([], s)
  | n + 1 =>
      let r := popEvent s loop_id event_type sender
      let rest := popMany r.2 loop_id event_type sender n
      (r.1 :: rest.1, rest.2)

/-- An empty store: no loops, no queues, no history, nothing published. -/
def emptyStore : RedisStore :=
  { index := []
    states := fun _ => Option.none
    queues := fun _ => []
    history := fun _ => []
    contextKV := fun _ => Option.none
    published := [] }

/-! ## `LoopContext.wait_for` (`context.py` lines 43-99)

The coroutine's observable behaviour is determined by what it reads at
each pass through its `while` loop. Flags can only change at `await`
points, and there is no `await` between the `while not self.should_stop`
test (line 58), the elapsed-time test (line 59), the `should_pause` test
(line 62) and the `should_stop` test (line 65), so one Boolean pair per
iteration describes all four reads; the `await pop_event` suspension sits
between those tests and the remaining-time test (line 79), so the two
clock reads of an iteration are separate inputs. -/

/-- The environment one iteration of the `wait_for` loop observes:
the stop/pause flags during the (await-free) check block, the elapsed
time `now - start` read at line 59, the result of the `pop_event` call,
and the elapsed time read at line 79. -/
structure WaitIter where
  stop : Bool
  pause : Bool
  elapsedCheck : ℚ
  popResult : Option LoopEvent
  elapsedAfterPop : ℚ

/-- Outcome of a `wait_for` call. -/
inductive WaitResult where
  | valueErr
  | pausedErr
  | stoppedErr
  | timeoutErr
  | nullReturn
  | event (e : LoopEvent)
deriving DecidableEq, Repr

/-- The code after the `while` loop (`context.py` lines 96-99): raise
`EventTimeoutError` when `raise_on_timeout`, else return `None`. -/
def timeoutOutcome (raise_on_timeout : Bool) : WaitResult :=
  if raise_on_timeout then WaitResult.timeoutErr else WaitResult.nullReturn

/-- The `while` loop of `wait_for` (`context.py` lines 58-89), one
recursive step per iteration, reading that iteration's environment:
exit the loop when `should_stop` holds at the `while` test; `break` when
`elapsed >= timeout`; raise `LoopPausedError` when `should_pause`; raise
`LoopStoppedError` when `should_stop` (the line-65 test, reading the same
flag value as the line-58 test); return a popped event; `break` when the
remaining budget is exhausted; otherwise wait and iterate. `Option.none`
means the supplied environment ended before the loop did. -/
def waitForLoop (timeout : ℚ) (raise_on_timeout : Bool) :
    List WaitIter → Option WaitResult
  | [] => Option.none
  | it :: rest =>
      if it.stop then some (timeoutOutcome raise_on_timeout)
      else if timeout ≤ it.elapsedCheck then some (timeoutOutcome raise_on_timeout)
      else if it.pause then some WaitResult.pausedErr
      else if it.stop then some WaitResult.stoppedErr
      else
        match it.popResult with
        | some e => some (WaitResult.event e)
        | Option.none =>
            if timeout - it.elapsedAfterPop ≤ 0 then
              some (timeoutOutcome raise_on_timeout)
            else waitForLoop timeout raise_on_timeout rest

/-- `LoopContext.wait_for` (`context.py` lines 43-99): after subscribing,
`timeout = float(timeout)` is validated — `timeout <= 0` raises
`ValueError` before the loop runs — and then the polling loop executes
against its environment. -/
def waitFor (timeout : ℚ) (raise_on_timeout : Bool) (iters : List WaitIter) :
    Option WaitResult :=
  if timeout ≤ 0 then some WaitResult.valueErr
  else waitForLoop timeout raise_on_timeout iters

/-! ## `LoopContext.delete` (`context.py` lines 132-136) -/

/-- Modelled from the spec: `StateManager.delete_context_value` is declared
in `fastloop/state/state.py`, absent from the sources; the spec describes
it as opaque value persistence keyed by `(loop_id, key)`, so deleting
removes that store entry. -/
def deleteContextValue (kv : String × String → Option String)
    (loop_id key : String) : String × String → Option String :=
  updFun kv (loop_id, key) Option.none

/-- `LoopContext.delete(key, local)` (`context.py` lines 132-136), acting
on the context's dynamic attribute set `attrs` and the context store `kv`:
unless `local`, first `await delete_context_value(loop_id, key)`; then
`delattr(self, key)`, which raises `AttributeError` when `key` is not a
current attribute. The result pairs the outcome (`Except.error` models the
escaping `AttributeError`) with the final attribute set and store. -/
def contextDelete (attrs : List String) (kv : String × String → Option String)
    (loop_id key : String) (localOnly : Bool) :
    Except String (List String) × (String × String → Option String) :=
  let kv2 := if localOnly then kv else deleteContextValue kv loop_id key
  if key ∈ attrs then (Except.ok (attrs.erase key), kv2)
  else (Except.error "AttributeError", kv2)

/-! ## `LoopMonitor` (`fastloop.py` lines 178-223) and
`RedisStateManager.get_all_loops` (`state_redis.py` lines 90-120) -/

/-- `RedisStateManager.get_all_loops` (`state_redis.py` lines 90-120):
`SMEMBERS` the index (modelled in index-list order), `GET` each record,
lazily `SREM` ids with no backing record, and keep the records matching
the requested status (`None` means no filter). Returns the collected
records and the store after the lazy cleanup. -/
def getAllLoops (s : RedisStore) (status : Option LoopStatus) :
    List LoopState × RedisStore :=
  let loops := s.index.filterMap (fun lid =>
    match s.states lid with
    | Option.none => Option.none
    | some rec =>
        match status with
        | Option.none => some rec
        | some st => if rec.status = st then some rec else Option.none)
  (loops, { s with index := s.index.filter (fun lid => (s.states lid).isSome) })

/-- One sweep of `LoopMonitor.run` (`fastloop.py` lines 187-222): fetch
the loops with status `RUNNING`, and for each one test
`loop.last_event_at + loop.idle_timeout < int(datetime.now().timestamp())`;
the body under that test is `pass` — the pause/idle transition is
commented out — so the sweep changes nothing beyond `get_all_loops`'s
lazy index cleanup. -/
def monitorSweep (s : RedisStore) (now : ℤ) : RedisStore :=
  let r := getAllLoops s (some LoopStatus.running)
  r.1.foldl
    (fun st l =>
      if (l.last_event_at : ℚ) + l.idle_timeout < (now : ℚ) then st else st)
    r.2

/-! ## Dispatcher route handler (`fastloop.py` lines 88-157) -/

/-- A 400-class HTTP rejection (`HTTPException` with
`status_code=HTTPStatus.BAD_REQUEST`). -/
structure HTTPErr where
  status_code : Nat
  detail : String
deriving DecidableEq, Repr

/-- The event registry and start-event key a `loop` decorator closes
over (`fastloop.py` lines 73-87): registered type tags and the
`start_event_key`. -/
structure EventRegistry where
  types : List String
  start_event_key : String

/-- An incoming request as the route handler sees it: the raw
`request.get("type")` value, and the result of
`event_model.model_validate(request)` — `Option.none` models a pydantic
`ValidationError`. Pydantic internals are outside the model. -/
structure IngressRequest where
  reqType : Option String
  parsed : Option LoopEvent

/-- `_route_handler` (`fastloop.py` lines 88-157) for a loop named `name`
registered with registry `reg` and `idle_timeout`: validate the type tag,
validate the payload, enforce the start-event rule for identity-less
events, resolve the loop via `get_or_create_loop`, reject when the
resolved loop is `STOPPED`, else stamp `event.loop_id`, `push_event`, and
start the `LoopManager`. Returns the HTTP outcome, the resulting store,
and whether `LoopManager.start` was invoked. -/
def routeHandler (name : String) (reg : EventRegistry) (idle_timeout : ℚ)
    (req : IngressRequest) (s : RedisStore) (fresh : String)
    (tResolve tCreate tTouch : ℤ) :
    Except HTTPErr LoopState × RedisStore × Bool :=
  if optFalsy req.reqType then
    (Except.error ⟨400, "Event type is required"⟩, s, false)
  else
    let ty := req.reqType.getD ""
    if ty ∉ reg.types then
      (Except.error ⟨400, "Unknown event type: " ++ ty⟩, s, false)
    else
      match req.parsed with
      | Option.none =>
          (Except.error ⟨400, "Invalid event data"⟩, s, false)
      | some ev =>
          if optFalsy ev.loop_id ∧ ty ≠ reg.start_event_key then
            (Except.error
              ⟨400, "Expected start event type " ++ reg.start_event_key ++
                    ", got " ++ ty⟩, s, false)
          else
            let r := getOrCreateLoop s (some name) ev.loop_id idle_timeout
              fresh tResolve
            let loop := r.1.1
            if loop.status = LoopStatus.stopped then
              (Except.error ⟨400, "Loop " ++ loop.loop_id ++ " is stopped"⟩,
                r.2, false)
            else
              let ev2 := { ev with loop_id := some loop.loop_id }
              (Except.ok loop,
                pushEvent r.2 loop.loop_id ev2 fresh tCreate tTouch, true)

/-! ## Concrete fixtures used to evaluate the model -/

/-- A sample client event of type `ping`. -/
def evPing : LoopEvent :=
  { type := "ping", loop_id := some "loop-1", sender := LoopEventSender.client
    nonce := Option.none, created_at := 1, payload := "p1" }

/-- A sample client event of type `a`. -/
def evA : LoopEvent :=
  { type := "a", loop_id := some "L", sender := LoopEventSender.client
    nonce := Option.none, created_at := 1, payload := "pa" }

/-- A sample client event of type `b`. -/
def evB : LoopEvent :=
  { type := "b", loop_id := some "L", sender := LoopEventSender.client
    nonce := Option.none, created_at := 2, payload := "pb" }

/-- A sample client event of type `t`, first payload. -/
def evT1 : LoopEvent :=
  { type := "t", loop_id := some "L", sender := LoopEventSender.client
    nonce := Option.none, created_at := 1, payload := "one" }

/-- A sample client event of type `t`, second payload. -/
def evT2 : LoopEvent :=
  { type := "t", loop_id := some "L", sender := LoopEventSender.client
    nonce := Option.none, created_at := 2, payload := "two" }

/-- A loop record that already exists in the store. -/
def knownRec : LoopState :=
  { loop_id := "known-id", loop_name := some "conv", status := LoopStatus.running
    idle_timeout := 30, last_event_at := 3 }

/-- A store holding exactly the record `knownRec`. -/
def storeKnown : RedisStore :=
  { emptyStore with
      states := updFun emptyStore.states "known-id" (some knownRec)
      index := ["known-id"] }

/-- A RUNNING loop whose `last_event_at + idle_timeout` is far in the past. -/
def idleCandidateRec : LoopState :=
  { loop_id := "idle-loop", loop_name := some "conv"
    status := LoopStatus.running, idle_timeout := 1, last_event_at := 0 }

/-- A store holding exactly the over-idle RUNNING loop `idleCandidateRec`. -/
def storeRunning : RedisStore :=
  { emptyStore with
      states := updFun emptyStore.states "idle-loop" (some idleCandidateRec)
      index := ["idle-loop"] }

/-- A STOPPED loop record. -/
def stoppedRec : LoopState :=
  { loop_id := "stopped-id", loop_name := some "conv"
    status := LoopStatus.stopped, idle_timeout := 60, last_event_at := 4 }

/-- A store holding exactly the STOPPED loop `stoppedRec`. -/
def storeStopped : RedisStore :=
  { emptyStore with
      states := updFun emptyStore.states "stopped-id" (some stoppedRec)
      index := ["stopped-id"] }

/-- A registry with the single event type `msg`, which is also the start
event. -/
def regMsg : EventRegistry :=
  { types := ["msg"], start_event_key := "msg" }

/-- A request of type `msg` addressed to the loop `stopped-id`. -/
def reqToStopped : IngressRequest :=
  { reqType := some "msg"
    parsed := some
      { type := "msg", loop_id := some "stopped-id"
        sender := LoopEventSender.client, nonce := Option.none
        created_at := 9, payload := "m" } }

/-- An empty context key/value store. -/
def emptyKV : String × String → Option String := fun _ => Option.none

/-- The effective loop id `get_or_create_loop` operates on
(`state_redis.py` lines 44-45): the generated uuid when the passed
`loop_id` is falsy, the passed id otherwise. -/
def effLoopId (loop_id : Option String) (fresh : String) : String :=
  if optFalsy loop_id then fresh else loop_id.getD fresh

end FastLoop

namespace FastLoop

/-! ## Helper lemmas -/

theorem updFun_self {α β : Type} [DecidableEq α] (f : α → β) (a : α) (b : β) :
    updFun f a b a = b := by
  simp [updFun]

theorem getOrCreateLoop_queues (s : RedisStore) (n : Option String)
    (lid : Option String) (i : ℚ) (f : String) (t : ℤ) :
    (getOrCreateLoop s n lid i f t).2.queues = s.queues := by
  unfold getOrCreateLoop
  dsimp only
  split <;> rfl

theorem getOrCreateLoop_history (s : RedisStore) (n : Option String)
    (lid : Option String) (i : ℚ) (f : String) (t : ℤ) :
    (getOrCreateLoop s n lid i f t).2.history = s.history := by
  unfold getOrCreateLoop
  dsimp only
  split <;> rfl

theorem getOrCreateLoop_published (s : RedisStore) (n : Option String)
    (lid : Option String) (i : ℚ) (f : String) (t : ℤ) :
    (getOrCreateLoop s n lid i f t).2.published = s.published := by
  unfold getOrCreateLoop
  dsimp only
  split <;> rfl

theorem pushEvent_queues (s : RedisStore) (lid : String) (e : LoopEvent)
    (f : String) (t1 t2 : ℤ) :
    (pushEvent s lid e f t1 t2).queues
      = updFun s.queues (queueKeyFor lid e.type e.sender)
          (e :: s.queues (queueKeyFor lid e.type e.sender)) := by
  show (updateLoop _ _ _).queues = _
  unfold updateLoop
  show (getOrCreateLoop (pushHistoryStep (pushQueueStep s lid e) lid e)
      Option.none (some lid) 60 f t1).2.queues = _
  rw [getOrCreateLoop_queues]
  rfl

theorem pushEvent_history (s : RedisStore) (lid : String) (e : LoopEvent)
    (f : String) (t1 t2 : ℤ) :
    (pushEvent s lid e f t1 t2).history
      = updFun s.history lid (e :: s.history lid) := by
  show (updateLoop _ _ _).history = _
  unfold updateLoop
  show (getOrCreateLoop (pushHistoryStep (pushQueueStep s lid e) lid e)
      Option.none (some lid) 60 f t1).2.history = _
  rw [getOrCreateLoop_history]
  rfl

theorem pushEvent_published (s : RedisStore) (lid : String) (e : LoopEvent)
    (f : String) (t1 t2 : ℤ) :
    (pushEvent s lid e f t1 t2).published = s.published := by
  show (updateLoop _ _ _).published = _
  unfold updateLoop
  show (getOrCreateLoop (pushHistoryStep (pushQueueStep s lid e) lid e)
      Option.none (some lid) 60 f t1).2.published = _
  rw [getOrCreateLoop_published]
  rfl

theorem queueKeyFor_eq (lid ty : String) (sd : LoopEventSender) :
    queueKeyFor lid ty sd = ⟨lid, ty, sd⟩ := by
  cases sd <;> rfl

theorem pushSeq_cons (s : RedisStore) (lid : String) (c : PushCall)
    (cs : List PushCall) :
    pushSeq s lid (c :: cs)
      = pushSeq (pushEvent s lid c.ev c.fresh c.tCreate c.tTouch) lid cs := rfl

theorem pushSeq_history (lid : String) (cs : List PushCall) (s : RedisStore) :
    (pushSeq s lid cs).history lid
      = (cs.map PushCall.ev).reverse ++ s.history lid := by
  induction cs generalizing s with
  | nil => simp [pushSeq]
  | cons c cs ih =>
      rw [pushSeq_cons, ih, pushEvent_history, updFun_self]
      simp

theorem pushSeq_queues (lid ty : String) (sd : LoopEventSender)
    (cs : List PushCall) (s : RedisStore)
    (hc : ∀ c ∈ cs, c.ev.type = ty ∧ c.ev.sender = sd) :
    (pushSeq s lid cs).queues ⟨lid, ty, sd⟩
      = (cs.map PushCall.ev).reverse ++ s.queues ⟨lid, ty, sd⟩ := by
  induction cs generalizing s with
  | nil => simp [pushSeq]
  | cons c cs ih =>
      have hty := (hc c (List.mem_cons_self c cs)).1
      have hsd := (hc c (List.mem_cons_self c cs)).2
      rw [pushSeq_cons, ih _ (fun x hx => hc x (List.mem_cons_of_mem c hx)),
        pushEvent_queues, hty, hsd, queueKeyFor_eq, updFun_self]
      simp

theorem popEvent_empty (s : RedisStore) (lid ty : String)
    (sd : LoopEventSender) (hq : s.queues ⟨lid, ty, sd⟩ = []) :
    popEvent s lid ty sd = (Option.none, s) := by
  simp only [popEvent, queueKeyFor_eq, hq, List.getLast?_nil]

theorem popEvent_concat (s : RedisStore) (lid ty : String)
    (sd : LoopEventSender) (q : List LoopEvent) (e : LoopEvent)
    (hq : s.queues ⟨lid, ty, sd⟩ = q ++ [e]) :
    popEvent s lid ty sd
      = (some e,
         { s with queues := updFun s.queues (⟨lid, ty, sd⟩ : QueueKey) q }) := by
  simp only [popEvent, queueKeyFor_eq, hq, List.getLast?_concat,
    List.dropLast_concat]

theorem popMany_succ (s : RedisStore) (lid ty : String)
    (sd : LoopEventSender) (n : Nat) :
    popMany s lid ty sd (n + 1)
      = ((popEvent s lid ty sd).1 ::
          (popMany (popEvent s lid ty sd).2 lid ty sd n).1,
         (popMany (popEvent s lid ty sd).2 lid ty sd n).2) := rfl

theorem popMany_drain (lid ty : String) (sd : LoopEventSender)
    (es : List LoopEvent) (s : RedisStore)
    (hq : s.queues ⟨lid, ty, sd⟩ = es.reverse) :
    (popMany s lid ty sd (es.length + 1)).1
      = es.map some ++ [Option.none] := by
  induction es generalizing s with
  | nil =>
      rw [List.reverse_nil] at hq
      simp [popMany_succ, popEvent_empty s lid ty sd hq, popMany]
  | cons e es ih =>
      have hrev : s.queues ⟨lid, ty, sd⟩ = es.reverse ++ [e] := by
        rw [hq]; simp
      have hnext :
          ({ s with queues := (updFun s.queues (⟨lid, ty, sd⟩ : QueueKey)
              es.reverse) } : RedisStore).queues ⟨lid, ty, sd⟩ = es.reverse := by
        simp [updFun_self]
      have hlen : (e :: es).length + 1 = es.length + 1 + 1 := by simp
      rw [hlen, popMany_succ, popEvent_concat s lid ty sd es.reverse e hrev]
      simp only [List.map_cons, List.cons_append]
      rw [ih _ hnext]

theorem sadd_mem_self (idx : List String) (x : String) : x ∈ sadd idx x := by
  unfold sadd
  split
  · assumption
  · simp

theorem getOrCreateLoop_found (s : RedisStore) (n : Option String)
    (lid : Option String) (i : ℚ) (f : String) (t : ℤ) (rec : LoopState)
    (hrec : s.states (effLoopId lid f) = some rec) :
    getOrCreateLoop s n lid i f t = ((rec, false), s) := by
  unfold effLoopId at hrec
  unfold getOrCreateLoop
  dsimp only
  rw [hrec]

theorem getOrCreateLoop_new (s : RedisStore) (n : Option String)
    (lid : Option String) (i : ℚ) (f : String) (t : ℤ)
    (habsent : s.states (effLoopId lid f) = Option.none) :
    getOrCreateLoop s n lid i f t
      = (({ loop_id := effLoopId lid f, loop_name := n
            status := LoopStatus.running, idle_timeout := i
            last_event_at := t }, true),
         { s with
             states := (updFun s.states (effLoopId lid f)
               (some { loop_id := effLoopId lid f, loop_name := n
                       status := LoopStatus.running, idle_timeout := i
                       last_event_at := t }))
             index := sadd s.index (effLoopId lid f) }) := by
  unfold effLoopId at habsent ⊢
  unfold getOrCreateLoop
  dsimp only
  rw [habsent]

theorem pushEvent_touch (s : RedisStore) (lid : String) (e : LoopEvent)
    (f : String) (t1 t2 : ℤ) :
    pushEvent s lid e f t1 t2
      = updateLoop
          (getOrCreateLoop (pushHistoryStep (pushQueueStep s lid e) lid e)
            Option.none (some lid) 60 f t1).2 lid
          { (getOrCreateLoop (pushHistoryStep (pushQueueStep s lid e) lid e)
              Option.none (some lid) 60 f t1).1.1 with
            last_event_at := t2 } := rfl

theorem pushHistoryStep_states (s : RedisStore) (lid : String)
    (e : LoopEvent) : (pushHistoryStep s lid e).states = s.states := rfl

theorem pushQueueStep_states (s : RedisStore) (lid : String)
    (e : LoopEvent) : (pushQueueStep s lid e).states = s.states := rfl

theorem pushHistoryStep_index (s : RedisStore) (lid : String)
    (e : LoopEvent) : (pushHistoryStep s lid e).index = s.index := rfl

theorem pushQueueStep_index (s : RedisStore) (lid : String)
    (e : LoopEvent) : (pushQueueStep s lid e).index = s.index := rfl

theorem effLoopId_some (lid : String) (f : String) (h : lid ≠ "") :
    effLoopId (some lid) f = lid := by
  simp [effLoopId, optFalsy, h]

theorem timeoutOutcome_ne_stopped (ro : Bool) :
    timeoutOutcome ro ≠ WaitResult.stoppedErr := by
  cases ro <;> simp [timeoutOutcome]

theorem waitForLoop_ne_stopped (t : ℚ) (ro : Bool) (iters : List WaitIter) :
    waitForLoop t ro iters ≠ some WaitResult.stoppedErr := by
  induction iters with
  | nil => simp [waitForLoop]
  | cons it rest ih =>
      unfold waitForLoop
      split
      · exact fun hc => timeoutOutcome_ne_stopped ro (Option.some.inj hc)
      · split
        · exact fun hc => timeoutOutcome_ne_stopped ro (Option.some.inj hc)
        · split
          · simp
          · split
            · simp
            · split
              · exact fun hc => timeoutOutcome_ne_stopped ro (Option.some.inj hc)
              · exact ih

theorem foldl_ite_self {α β : Type} (p : β → Prop) [DecidablePred p]
    (l : List β) (init : α) :
    l.foldl (fun st x => if p x then st else st) init = init := by
  induction l generalizing init with
  | nil => rfl
  | cons x xs ih => simp [List.foldl_cons, ite_self, ih]

theorem getAllLoops_states (s : RedisStore) (st : Option LoopStatus) :
    (getAllLoops s st).2.states = s.states := rfl

theorem monitorSweep_states (s : RedisStore) (now : ℤ) :
    (monitorSweep s now).states = s.states := by
  unfold monitorSweep
  dsimp only
  rw [foldl_ite_self
    (fun l : LoopState => (l.last_event_at : ℚ) + l.idle_timeout < (now : ℚ))]
  exact getAllLoops_states s (some LoopStatus.running)

/-! ## Claim theorems -/

/-- C1 (amended): `push_event(loop_id, event)` appends the event to the
direction-specific queue chosen by `event.sender`, appends it to the
per-loop event history log, and updates the loop record's
`last_event_at` (creating the record if missing); it does **not** publish
any change notification, and the effects are issued as separate
sequential store commands rather than atomically — after the queue
append, a state in which the history log is still unchanged is
observable. -/
theorem push_event_effects (s : RedisStore) (lid : String) (e : LoopEvent)
    (f : String) (t1 t2 : ℤ) :
    (pushEvent s lid e f t1 t2).queues (queueKeyFor lid e.type e.sender)
        = e :: s.queues (queueKeyFor lid e.type e.sender)
  ∧ (pushEvent s lid e f t1 t2).history lid = e :: s.history lid
  ∧ (∃ rec, (pushEvent s lid e f t1 t2).states lid = some rec
        ∧ rec.last_event_at = t2)
  ∧ (pushEvent s lid e f t1 t2).published = s.published
  ∧ (pushQueueStep s lid e).queues (queueKeyFor lid e.type e.sender)
        = e :: s.queues (queueKeyFor lid e.type e.sender)
  ∧ (pushQueueStep s lid e).history lid = s.history lid := by
  refine ⟨?_, ?_, ?_, ?_, ?_, ?_⟩
  · rw [pushEvent_queues, updFun_self]
  · rw [pushEvent_history, updFun_self]
  · refine ⟨{ (getOrCreateLoop (pushHistoryStep (pushQueueStep s lid e) lid e)
        Option.none (some lid) 60 f t1).1.1 with last_event_at := t2 }, ?_, rfl⟩
    rw [pushEvent_touch]
    simp [updateLoop, updFun_self]
  · exact pushEvent_published s lid e f t1 t2
  · simp [pushQueueStep, updFun_self]
  · rfl

/-- C1 counterexample: at a concrete input — an empty store, loop id
`loop-1`, a client `ping` event — `push_event` publishes nothing: the
log of published notifications stays empty, so no change notification
for `loop-1` is published, contrary to the claim. -/
theorem push_event_no_notification_cex :
    (pushEvent emptyStore "loop-1" evPing "uuid-1" 1 2).published = []
  ∧ "loop-1" ∉ (pushEvent emptyStore "loop-1" evPing "uuid-1" 1 2).published := by
  have h : (pushEvent emptyStore "loop-1" evPing "uuid-1" 1 2).published = [] := by
    rw [pushEvent_published]
    rfl
  exact ⟨h, by rw [h]; simp⟩

/-- C4 (amended): `get_event_history(loop_id)` returns the full history
log in *reverse* append order — the most recently pushed event first,
the oldest last — because `push_event` `LPUSH`es onto the history list
and `get_event_history` reads it with `LRANGE 0 -1`, head first. -/
theorem get_event_history_newest_first (s : RedisStore) (lid : String)
    (cs : List PushCall) :
    getEventHistory (pushSeq s lid cs) lid
      = (cs.map PushCall.ev).reverse ++ getEventHistory s lid :=
  pushSeq_history lid cs s

/-- C4 counterexample: pushing `evA` then `evB` to an empty store makes
`get_event_history` return `[evB, evA]` — newest first — which is not
the append order `[evA, evB]` the claim states. -/
theorem get_event_history_order_cex :
    getEventHistory
        (pushEvent (pushEvent emptyStore "L" evA "uA" 1 1) "L" evB "uB" 2 2) "L"
      = [evB, evA]
  ∧ ([evB, evA] : List LoopEvent) ≠ [evA, evB] := by
  constructor
  · show (pushEvent (pushEvent emptyStore "L" evA "uA" 1 1) "L"
        evB "uB" 2 2).history "L" = _
    rw [pushEvent_history, updFun_self, pushEvent_history, updFun_self]
    rfl
  · decide

/-- C5 (amended): `get_or_create_loop` operates on the effective loop id
— the generated UUID v4 only when the passed `loop_id` is absent or
empty, the passed `loop_id` itself otherwise. When a record exists under
that id it is returned with `created=false`, ignoring the passed
`idle_timeout` and `loop_name`, and the store is unchanged; otherwise an
initial record with status RUNNING and `last_event_at = now` is
persisted under that id, the id is added to the index set, and the
record is returned with `created=true`. -/
theorem get_or_create_loop_amended (s : RedisStore) (n : Option String)
    (lid : Option String) (i : ℚ) (f : String) (t : ℤ) :
    (∀ rec, s.states (effLoopId lid f) = some rec →
        getOrCreateLoop s n lid i f t = ((rec, false), s))
  ∧ (s.states (effLoopId lid f) = Option.none →
        (getOrCreateLoop s n lid i f t).1.2 = true
      ∧ (getOrCreateLoop s n lid i f t).1.1
          = { loop_id := effLoopId lid f, loop_name := n
              status := LoopStatus.running, idle_timeout := i
              last_event_at := t }
      ∧ (getOrCreateLoop s n lid i f t).2.states (effLoopId lid f)
          = some { loop_id := effLoopId lid f, loop_name := n
                   status := LoopStatus.running, idle_timeout := i
                   last_event_at := t }
      ∧ effLoopId lid f ∈ (getOrCreateLoop s n lid i f t).2.index) := by
  constructor
  · intro rec hrec
    exact getOrCreateLoop_found s n lid i f t rec hrec
  · intro habsent
    rw [getOrCreateLoop_new s n lid i f t habsent]
    refine ⟨rfl, rfl, ?_, ?_⟩
    · exact updFun_self _ _ _
    · exact sadd_mem_self _ _

/-- C5 witness: both branches of `get_or_create_loop_amended` applied at
concrete inputs — the store holding `knownRec` returns the stored record
with `created=false`, and an empty store with a provided id creates a
RUNNING record under it. -/
theorem get_or_create_loop_amended_witness :
    getOrCreateLoop storeKnown (some "other") (some "known-id") 99 "f-uuid" 8
        = ((knownRec, false), storeKnown)
  ∧ (getOrCreateLoop emptyStore (some "conv") (some "new-id") 60 "f-uuid" 8).1.2
        = true := by
  constructor
  · exact (get_or_create_loop_amended storeKnown (some "other")
      (some "known-id") 99 "f-uuid" 8).1 knownRec rfl
  · exact ((get_or_create_loop_amended emptyStore (some "conv")
      (some "new-id") 60 "f-uuid" 8).2 rfl).1

/-- C5 counterexample: with an empty store and a provided `loop_id`
`client-id` for which no record exists, `get_or_create_loop` creates the
record (`created=true`) under the *provided* id `client-id`, not under
the freshly generated UUID `fresh-uuid` — refuting the claim that a
fresh UUID v4 id is generated in every case where no record exists. -/
theorem get_or_create_loop_uuid_cex :
    (getOrCreateLoop emptyStore (some "conv") (some "client-id") 60
        "fresh-uuid" 7).1.1.loop_id = "client-id"
  ∧ ("client-id" : String) ≠ "fresh-uuid"
  ∧ (getOrCreateLoop emptyStore (some "conv") (some "client-id") 60
        "fresh-uuid" 7).1.2 = true := by
  refine ⟨?_, by decide, ?_⟩
  · rw [getOrCreateLoop_new _ _ _ _ _ _ rfl]
    rfl
  · rw [getOrCreateLoop_new _ _ _ _ _ _ rfl]

/-- C9: when no loop record exists for a (non-empty) `loop_id`,
`push_event` does not fail: it creates and persists a fresh record for
that id with `loop_name` None, the default `idle_timeout` of 60.0
seconds and status RUNNING, sets its `last_event_at` to the current
time, and adds the id to the index set. -/
theorem push_event_creates_missing_loop (s : RedisStore) (lid : String)
    (e : LoopEvent) (f : String) (t1 t2 : ℤ)
    (hlid : lid ≠ "") (habsent : s.states lid = Option.none) :
    (pushEvent s lid e f t1 t2).states lid
        = some { loop_id := lid, loop_name := Option.none
                 status := LoopStatus.running, idle_timeout := 60
                 last_event_at := t2 }
  ∧ lid ∈ (pushEvent s lid e f t1 t2).index := by
  have habsent2 :
      (pushHistoryStep (pushQueueStep s lid e) lid e).states
        (effLoopId (some lid) f) = Option.none := by
    rw [pushHistoryStep_states, pushQueueStep_states, effLoopId_some lid f hlid]
    exact habsent
  rw [pushEvent_touch, getOrCreateLoop_new _ _ _ _ _ _ habsent2]
  constructor
  · show (updateLoop _ lid _).states lid = _
    rw [updateLoop]
    show updFun _ lid _ lid = _
    rw [updFun_self, effLoopId_some lid f hlid]
  · show lid ∈ sadd (pushHistoryStep (pushQueueStep s lid e) lid e).index
      (effLoopId (some lid) f)
    rw [pushHistoryStep_index, pushQueueStep_index, effLoopId_some lid f hlid]
    exact sadd_mem_self s.index lid

/-- C9 witness: `push_event` on an empty store with loop id `L` creates
the RUNNING record with default idle timeout 60 and indexes `L`. -/
theorem push_event_creates_missing_loop_witness :
    (pushEvent emptyStore "L" evA "u1" 1 2).states "L"
        = some { loop_id := "L", loop_name := Option.none
                 status := LoopStatus.running, idle_timeout := 60
                 last_event_at := 2 }
  ∧ "L" ∈ (pushEvent emptyStore "L" evA "u1" 1 2).index :=
  push_event_creates_missing_loop emptyStore "L" evA "u1" 1 2
    (by decide) rfl

/-- C6: for every sequence of events pushed to a single
`(loop_id, event_type, sender)` queue that starts empty, successive
`pop_event` calls return the events in exactly the order they were
pushed — strict FIFO, since `push_event` `LPUSH`es and `pop_event`
`RPOP`s — and the pop after the last pushed event returns null on the
then-empty queue. -/
theorem pop_event_fifo (s : RedisStore) (lid ty : String)
    (sd : LoopEventSender) (cs : List PushCall)
    (hq : s.queues ⟨lid, ty, sd⟩ = [])
    (hc : ∀ c ∈ cs, c.ev.type = ty ∧ c.ev.sender = sd) :
    (popMany (pushSeq s lid cs) lid ty sd (cs.length + 1)).1
      = cs.map (fun c => some c.ev) ++ [Option.none] := by
  have hqs : (pushSeq s lid cs).queues ⟨lid, ty, sd⟩
      = (cs.map PushCall.ev).reverse := by
    rw [pushSeq_queues lid ty sd cs s hc, hq]
    simp
  have hlen : cs.length + 1 = (cs.map PushCall.ev).length + 1 := by simp
  rw [hlen, popMany_drain lid ty sd (cs.map PushCall.ev) _ hqs]
  simp

/-- C6 witness: pushing two `t`-typed client events and popping three
times yields the two events in push order and then null. -/
theorem pop_event_fifo_witness :
    (popMany
        (pushSeq emptyStore "L"
          [{ ev := evT1, fresh := "u1", tCreate := 1, tTouch := 1 },
           { ev := evT2, fresh := "u2", tCreate := 2, tTouch := 2 }])
        "L" "t" LoopEventSender.client 3).1
      = [some evT1, some evT2, Option.none] :=
  pop_event_fifo emptyStore "L" "t" LoopEventSender.client
    [{ ev := evT1, fresh := "u1", tCreate := 1, tTouch := 1 },
     { ev := evT2, fresh := "u2", tCreate := 2, tTouch := 2 }]
    rfl (by decide)

/-- C2 (amended): inside `wait_for`, whenever the pause flag is true at
the check point (with the stop flag false and the budget not yet
exhausted) the call fails fast with `LoopPausedError`, for every
timeout and `raise_on_timeout` setting; but when the stop flag is true
at the check point, the `while not self.should_stop` guard exits the
loop before the `LoopStoppedError` branch can run, so the call ends
with timeout behaviour — `EventTimeoutError` or `None` per
`raise_on_timeout` — and `LoopStoppedError` is never raised on any
input. -/
theorem wait_for_lifecycle_flags :
    (∀ (t : ℚ) (ro : Bool) (iters : List WaitIter),
        waitFor t ro iters ≠ some WaitResult.stoppedErr)
  ∧ (∀ (t : ℚ) (ro : Bool) (it : WaitIter) (rest : List WaitIter),
        0 < t → it.stop = false → it.elapsedCheck < t → it.pause = true →
        waitFor t ro (it :: rest) = some WaitResult.pausedErr)
  ∧ (∀ (t : ℚ) (ro : Bool) (it : WaitIter) (rest : List WaitIter),
        0 < t → it.stop = true →
        waitFor t ro (it :: rest) = some (timeoutOutcome ro)) := by
  refine ⟨?_, ?_, ?_⟩
  · intro t ro iters
    unfold waitFor
    split
    · simp
    · exact waitForLoop_ne_stopped t ro iters
  · intro t ro it rest ht hstop helapsed hpause
    have hnt : ¬ t ≤ 0 := not_le.mpr ht
    have hne : ¬ t ≤ it.elapsedCheck := not_le.mpr helapsed
    simp [waitFor, hnt, waitForLoop, hstop, hne, hpause]
  · intro t ro it rest ht hstop
    have hnt : ¬ t ≤ 0 := not_le.mpr ht
    simp [waitFor, hnt, waitForLoop, hstop]

/-- C2 witness: concrete instances of the three parts — a first
iteration with the pause flag set yields `LoopPausedError`; a first
iteration with the stop flag set yields `EventTimeoutError` (the
timeout outcome for `raise_on_timeout=true`); and no run ends in
`LoopStoppedError`. -/
theorem wait_for_lifecycle_flags_witness :
    waitFor 10 true
        [{ stop := false, pause := true, elapsedCheck := 0
           popResult := Option.none, elapsedAfterPop := 0 }]
      = some WaitResult.pausedErr
  ∧ waitFor 10 true
        [{ stop := true, pause := false, elapsedCheck := 0
           popResult := Option.none, elapsedAfterPop := 0 }]
      = some (timeoutOutcome true)
  ∧ waitFor 10 true [] ≠ some WaitResult.stoppedErr :=
  ⟨wait_for_lifecycle_flags.2.1 10 true
      { stop := false, pause := true, elapsedCheck := 0
        popResult := Option.none, elapsedAfterPop := 0 } []
      (by norm_num) rfl (by norm_num) rfl,
   wait_for_lifecycle_flags.2.2 10 true
      { stop := true, pause := false, elapsedCheck := 0
        popResult := Option.none, elapsedAfterPop := 0 } []
      (by norm_num) rfl,
   wait_for_lifecycle_flags.1 10 true []⟩

/-- C2 counterexample: with the stop flag true at the check point of the
first iteration (timeout 10, `raise_on_timeout=true`), `wait_for` does
not raise `LoopStoppedError` as the claim states — it raises
`EventTimeoutError` instead, because the `while` guard consumes the
stop flag before the `LoopStoppedError` check is reached. -/
theorem wait_for_stop_flag_cex :
    waitFor 10 true
        [{ stop := true, pause := false, elapsedCheck := 0
           popResult := Option.none, elapsedAfterPop := 0 }]
      = some WaitResult.timeoutErr
  ∧ some WaitResult.timeoutErr ≠ some WaitResult.stoppedErr := by
  constructor
  · have h10 : ¬ (10 : ℚ) ≤ 0 := by norm_num
    simp [waitFor, h10, waitForLoop, timeoutOutcome]
  · simp

/-- C8: calling `wait_for` with a timeout equal to zero or negative
rejects with a `ValueError` — the validation at the top of the function
— rather than entering the wait loop or returning null, for every
environment and `raise_on_timeout` setting. -/
theorem wait_for_nonpositive_timeout (t : ℚ) (ro : Bool)
    (iters : List WaitIter) (h : t ≤ 0) :
    waitFor t ro iters = some WaitResult.valueErr := by
  simp [waitFor, h]

/-- C8 witness: `wait_for` with timeout 0 yields the validation error. -/
theorem wait_for_nonpositive_timeout_witness :
    waitFor 0 true [] = some WaitResult.valueErr :=
  wait_for_nonpositive_timeout 0 true [] (by norm_num)

/-- C3: at the failing input — a store holding a RUNNING loop with
`last_event_at = 0` and `idle_timeout = 1`, swept at time 10 — the loop
satisfies the idle-candidate condition
`last_event_at + idle_timeout < now`, yet a `LoopMonitor` sweep leaves
its record unchanged with status RUNNING: the transition to IDLE that
the claim (and the spec's stated intent) requires is commented out in
`LoopMonitor.run`, whose conditional body is `pass`. -/
theorem monitor_sweep_leaves_idle_candidate_running :
    ((idleCandidateRec.last_event_at : ℚ) + idleCandidateRec.idle_timeout
        < (10 : ℚ))
  ∧ (monitorSweep storeRunning 10).states "idle-loop" = some idleCandidateRec
  ∧ idleCandidateRec.status = LoopStatus.running := by
  refine ⟨by norm_num [idleCandidateRec], ?_, rfl⟩
  rw [monitorSweep_states]
  rfl

/-- C7: a POST that resolves (via `get_or_create_loop`) to a loop whose
status is STOPPED is rejected by the dispatcher with a 400 error, the
event is not enqueued — the store is returned exactly as it was, so
`push_event` was not invoked — and `LoopManager.start` is not
invoked. -/
theorem route_handler_rejects_stopped (name : String) (reg : EventRegistry)
    (idle : ℚ) (req : IngressRequest) (s : RedisStore) (f : String)
    (t1 t2 t3 : ℤ) (ty : String) (ev : LoopEvent) (lid : String)
    (rec : LoopState)
    (hty : req.reqType = some ty) (htyne : ty ≠ "")
    (hreg : ty ∈ reg.types) (hparse : req.parsed = some ev)
    (hlid : ev.loop_id = some lid) (hlidne : lid ≠ "")
    (hrec : s.states lid = some rec)
    (hstop : rec.status = LoopStatus.stopped) :
    routeHandler name reg idle req s f t1 t2 t3
      = (Except.error ⟨400, "Loop " ++ rec.loop_id ++ " is stopped"⟩,
          s, false) := by
  have hfalsy : optFalsy (some ty) = false := by simp [optFalsy, htyne]
  have hfalsy2 : optFalsy (some lid) = false := by simp [optFalsy, hlidne]
  have hresolve : getOrCreateLoop s (some name) (some lid) idle f t1
      = ((rec, false), s) := by
    apply getOrCreateLoop_found
    rw [effLoopId_some lid f hlidne]
    exact hrec
  unfold routeHandler
  rw [hty]
  simp only [hfalsy, Bool.false_eq_true, if_false, Option.getD_some, hparse]
  rw [if_neg (by simp [hreg])]
  rw [hlid]
  simp only [hfalsy2, Bool.false_eq_true, false_and, if_false, ite_false]
  rw [hresolve]
  simp [hstop]

/-- C7 witness: a `msg` POST addressed to the stopped loop `stopped-id`
is rejected with the 400 detail, the store is unchanged, and the
manager is not started. -/
theorem route_handler_rejects_stopped_witness :
    routeHandler "conv" regMsg 60 reqToStopped storeStopped "f-uuid" 1 2 3
      = (Except.error ⟨400, "Loop " ++ stoppedRec.loop_id ++ " is stopped"⟩,
          storeStopped, false) :=
  route_handler_rejects_stopped "conv" regMsg 60 reqToStopped storeStopped
    "f-uuid" 1 2 3 "msg"
    { type := "msg", loop_id := some "stopped-id"
      sender := LoopEventSender.client, nonce := Option.none
      created_at := 9, payload := "m" }
    "stopped-id" stoppedRec rfl (by decide) (by simp [regMsg]) rfl rfl
    (by decide) rfl rfl

/-- C10: for every key that is not currently cached as an in-process
attribute of the context, `LoopContext.delete(key)` raises
`AttributeError`; and with `local=false`, the store entry for
`(loop_id, key)` has already been deleted when the error is raised —
the returned store maps `(loop_id, key)` to nothing — so the operation
is not atomic on this error path. -/
theorem context_delete_uncached (attrs : List String)
    (kv : String × String → Option String) (lid key : String)
    (h : key ∉ attrs) :
    contextDelete attrs kv lid key false
        = (Except.error "AttributeError", deleteContextValue kv lid key)
  ∧ (contextDelete attrs kv lid key false).2 (lid, key) = Option.none := by
  have heq : contextDelete attrs kv lid key false
      = (Except.error "AttributeError", deleteContextValue kv lid key) := by
    simp [contextDelete, h]
  refine ⟨heq, ?_⟩
  rw [heq]
  exact updFun_self _ _ _

/-- C10 witness: deleting the uncached key `k` on an empty attribute set
raises `AttributeError` with the `(L, k)` store entry already gone. -/
theorem context_delete_uncached_witness :
    contextDelete [] emptyKV "L" "k" false
        = (Except.error "AttributeError", deleteContextValue emptyKV "L" "k")
  ∧ (contextDelete [] emptyKV "L" "k" false).2 ("L", "k") = Option.none :=
  context_delete_uncached [] emptyKV "L" "k" (by simp)

end FastLoop
